import Mathlib

/-!
# Verification of the watch-history query pipeline

Shallow embedding of `src/Biscoop-app/src/pages/profile/History.tsx`:
the filter / sort / paginate / group pipeline over a user's watch
history, together with its statistics aggregator, state wiring and
the JavaScript object-key enumeration semantics used when the grouped
page is displayed via `Object.entries`.
-/

/-- Model of a JavaScript `Date` value as used by `History.tsx`: the code
only ever reads `getTime()` (millisecond timestamp, possibly negative for
pre-1970 dates), `getFullYear()` and the en-US "Month Year" label produced
by `toLocaleDateString`.  We carry those three observations directly. -/
structure JSDate where
  time : Int
  year : Int
  monthLabel : String
  deriving DecidableEq, Repr

/-- A history entry (`FilmHistory` in `api/users`, per the spec's §3 data
model): `name` is required, the rest are optional; `dateAdded` is attached
by `loadHistory`. -/
structure FilmHistory where
  id : Nat
  name : String
  genre : Option String
  rating : Option String
  duration : Option Nat
  description : Option String
  dateAdded : Option JSDate
  deriving DecidableEq, Repr

/-- Sort options of `History.tsx` (`type SortOption`). -/
inductive SortOption where
  | name | rating | duration | dateAdded
  deriving DecidableEq, Repr

/-- Group options of `History.tsx` (`type GroupOption`). -/
inductive GroupOption where
  | none | month | year
  deriving DecidableEq, Repr

/-- ASCII lower-casing of one character, the behaviour of JavaScript
`toLowerCase` on the ASCII range. -/
def charLower (c : Char) : Char :=
  if 65 ≤ c.toNat ∧ c.toNat ≤ 90 then Char.ofNat (c.toNat + 32) else c

/-- Model of JavaScript `s.toLowerCase()`. -/
def jsToLower (s : String) : String :=
  ⟨s.data.map charLower⟩

/-- Drop leading whitespace from a character list. -/
def dropLeadWs : List Char → List Char
  | [] => []
  | c :: cs => if c.isWhitespace then dropLeadWs cs else c :: cs

/-- Model of JavaScript `s.trim()`: strip whitespace from both ends. -/
def jsTrim (s : String) : String :=
  ⟨(dropLeadWs (dropLeadWs s.data.reverse).reverse)⟩

/-- `pat` occurs at the head of `s` (character list form of
`String.startsWith` for the substring scan). -/
def segStarts : List Char → List Char → Bool
  | [], _ => true
  | _ :: _, [] => false
  | p :: ps, c :: cs => p = c && segStarts ps cs

/-- `pat` occurs contiguously somewhere in `s`. -/
def segSome (pat : List Char) : List Char → Bool
  | [] => segStarts pat []
  | c :: cs => segStarts pat (c :: cs) || segSome pat cs

/-- JavaScript `s.includes(pat)`: contiguous substring test. -/
def jsIncludes (s pat : String) : Bool :=
  segSome pat.toList s.toList

/-- Search predicate (History.tsx lines 71–75): lower-cased query must be a
substring of the lower-cased title, or of the genre or description when
present (optional chaining yields `undefined`, which is falsy). -/
def searchPass (query : String) (m : FilmHistory) : Bool :=
  jsIncludes (jsToLower m.name) query ||
    (match m.genre with
     | some g => jsIncludes (jsToLower g) query
     | none => false) ||
    (match m.description with
     | some d => jsIncludes (jsToLower d) query
     | none => false)

/-- Genre predicate (lines 80–82): `movie.genre && selectedGenres.includes(movie.genre)`. -/
def genrePass (selected : List String) (m : FilmHistory) : Bool :=
  match m.genre with
  | some g => decide (g ∈ selected)
  | none => false

/-- Rating predicate (line 87): `movie.rating === ratingFilter`. -/
def ratingPass (filt : String) (m : FilmHistory) : Bool :=
  match m.rating with
  | some r => decide (r = filt)
  | none => false

/-- Duration predicate (lines 92–100): `movie.duration || 0` then bucket
comparison; any other filter string falls through to `true`. -/
def durationPass (filt : String) (m : FilmHistory) : Bool :=
  let duration := m.duration.getD 0
  if filt = "short" then decide (duration < 90)
  else if filt = "medium" then decide (90 ≤ duration) && decide (duration ≤ 120)
  else if filt = "long" then decide (120 < duration)
  else true

/-- Date-range predicate (lines 111–118): a missing `dateAdded` always
passes; otherwise reject when a set `from` is after the date or a set `to`
is before it. -/
def dateRangePass (fr tj : Option Int) (m : FilmHistory) : Bool :=
  match m.dateAdded with
  | none => true
  | some d =>
    !(fr.any fun f => decide (d.time < f)) && !(tj.any fun t => decide (t < d.time))

/-- The component's state fields used by the pipeline (the `useState`
hooks of `History.tsx`).  `dateFrom`/`dateTo` hold the parsed time values
of the `dateRange` strings, `none` standing for the falsy empty string. -/
structure HistoryState where
  movies : List FilmHistory
  filteredMovies : List FilmHistory
  searchQuery : String
  selectedGenres : List String
  ratingFilter : String
  durationFilter : String
  yearFilter : String
  dateFrom : Option Int
  dateTo : Option Int
  sortBy : SortOption
  groupBy : GroupOption
  itemsPerPage : Nat
  currentPage : Nat
  deriving DecidableEq, Repr

/-- The filter portion of `applyFilters` (lines 65–119), stage by stage in
source order.  The year-filter branch (lines 104–107) checks the filter but
applies no predicate — its body is a comment — so both arms return the
running result unchanged. -/
def filterStep (s : HistoryState) : List FilmHistory :=
  let r0 := s.movies
  let r1 := if jsTrim s.searchQuery ≠ "" then
      r0.filter (searchPass (jsToLower s.searchQuery)) else r0
  let r2 := if s.selectedGenres.length > 0 then
      r1.filter (genrePass s.selectedGenres) else r1
  let r3 := if s.ratingFilter ≠ "all" then
      r2.filter (ratingPass s.ratingFilter) else r2
  let r4 := if s.durationFilter ≠ "all" then
      r3.filter (durationPass s.durationFilter) else r3
  let r5 := if s.yearFilter ≠ "all" then r4 else r4
  let r6 := if s.dateFrom.isSome || s.dateTo.isSome then
      r5.filter (dateRangePass s.dateFrom s.dateTo) else r5
  r6

/-- Strict lexicographic order on character lists, by code point. -/
def lexLt : List Char → List Char → Bool
  | [], [] => false
  | [], _ :: _ => true
  | _ :: _, [] => false
  | a :: as, b :: bs => decide (a.toNat < b.toNat) || (a = b && lexLt as bs)

/-- Strict lexicographic order on strings. -/
def strLt (s t : String) : Bool :=
  lexLt s.data t.data

/-- Sign-valued string comparison: the model of `localeCompare`
(only the sign of the result is ever used by the comparators). -/
def strCmpInt (s t : String) : Int :=
  if strLt s t then -1 else if strLt t s then 1 else 0

/-- `a.dateAdded ? new Date(a.dateAdded).getTime() : 0` (lines 131–132). -/
def timeOf (m : FilmHistory) : Int :=
  match m.dateAdded with
  | some d => d.time
  | none => 0

/-- The sort comparator of lines 122–137, one case per `SortOption`. -/
def cmpMovies : SortOption → FilmHistory → FilmHistory → Int
  | .name, a, b => strCmpInt a.name b.name
  | .rating, a, b => strCmpInt (b.rating.getD "") (a.rating.getD "")
  | .duration, a, b => (b.duration.getD 0 : Int) - (a.duration.getD 0 : Int)
  | .dateAdded, a, b => timeOf b - timeOf a

/-- `a` may be placed no later than `b` by the comparator: `cmp a b ≤ 0`. -/
def sortLe (k : SortOption) (a b : FilmHistory) : Prop :=
  cmpMovies k a b ≤ 0

instance (k : SortOption) : DecidableRel (sortLe k) :=
  fun _ _ => Int.decLe _ _

/-- The sort stage: `result.sort(comparator)` — JavaScript's sort is
stable, and a stable sort with respect to a total preorder is the
insertion sort. -/
def sortStep (k : SortOption) (l : List FilmHistory) : List FilmHistory :=
  List.insertionSort (sortLe k) l

/-- `applyFilters` (lines 65–141): recompute `filteredMovies` from the base
collection and reset `currentPage` to 1. -/
def applyFilters (s : HistoryState) : HistoryState :=
  { s with filteredMovies := sortStep s.sortBy (filterStep s), currentPage := 1 }

/-- `totalPages = Math.ceil(filteredMovies.length / itemsPerPage)` (line 168),
with JavaScript's exact rational division modelled in `ℚ`. -/
def totalPages (s : HistoryState) : Nat :=
  ⌈(s.filteredMovies.length : ℚ) / (s.itemsPerPage : ℚ)⌉₊

/-- `startIndex = (currentPage - 1) * itemsPerPage` (line 169). -/
def startIndex (s : HistoryState) : Nat :=
  (s.currentPage - 1) * s.itemsPerPage

/-- `currentMovies = filteredMovies.slice(startIndex, endIndex)` (line 171)
with `endIndex = startIndex + itemsPerPage`. -/
def currentMovies (s : HistoryState) : List FilmHistory :=
  (s.filteredMovies.drop (startIndex s)).take s.itemsPerPage

/-- `totalMovies = movies.length` (line 174). -/
def totalMovies (s : HistoryState) : Nat :=
  s.movies.length

/-- `movies.reduce((sum, movie) => sum + (movie.duration || 0), 0)` (line 175). -/
def durSum (l : List FilmHistory) : Nat :=
  l.foldl (fun sum m => sum + m.duration.getD 0) 0

/-- JavaScript `Math.round` on a rational: round half toward positive
infinity. -/
def jsRound (q : ℚ) : ℤ :=
  ⌊q + 1 / 2⌋

/-- `totalHours = Math.round(movies.reduce(...) / 60)` (line 175). -/
def totalHours (s : HistoryState) : ℤ :=
  jsRound ((durSum s.movies : ℚ) / 60)

/-- `filteredCount = filteredMovies.length` (line 176). -/
def filteredCount (s : HistoryState) : Nat :=
  s.filteredMovies.length

/-- The bucket label computed at lines 182–194: entries without
`dateAdded` go to `"Unknown"`; otherwise the localized "Month Year" string
for `month`, `getFullYear().toString()` for `year`, and the initializer
`''` for any other key (that arm is unreachable from `groupedMovies`). -/
def groupLabel (g : GroupOption) (m : FilmHistory) : String :=
  match m.dateAdded with
  | Option.none => "Unknown"
  | some d =>
    match g with
    | .month => d.monthLabel
    | .year => toString d.year
    | .none => ""

/-- `groups[key] = groups[key] || []; groups[key].push(movie)`: append `m`
to the bucket of key `k`, creating the bucket at the end (JavaScript
string-key insertion order) when it does not exist yet. -/
def pushGroup (groups : List (String × List FilmHistory)) (k : String)
    (m : FilmHistory) : List (String × List FilmHistory) :=
  match groups with
  | [] => [(k, [m])]
  | (k0, b) :: rest =>
    if k0 = k then (k0, b ++ [m]) :: rest else (k0, b) :: pushGroup rest k m

/-- `groupedMovies` (lines 179–200) as an association list in property
insertion order: one bucket `'All Movies'` for `groupBy === 'none'`,
otherwise a `forEach` over the page slice pushing into per-label buckets. -/
def groupedMovies (g : GroupOption) (slice : List FilmHistory) :
    List (String × List FilmHistory) :=
  match g with
  | .none => [("All Movies", slice)]
  | _ => slice.foldl (fun gs m => pushGroup gs (groupLabel g m) m) []

/-- Decimal digit value of a character, if it is a digit. -/
def digVal (c : Char) : Option Nat :=
  if 48 ≤ c.toNat ∧ c.toNat ≤ 57 then some (c.toNat - 48) else none

/-- Parse a non-empty all-digit character list as a natural number. -/
def digitsToNat : List Char → Nat → Option Nat
  | [], acc => some acc
  | c :: cs, acc =>
    match digVal c with
    | some d => digitsToNat cs (acc * 10 + d)
    | none => none

/-- Parse a string of decimal digits (empty and non-digit strings fail). -/
def strToNat (s : String) : Option Nat :=
  match s.data with
  | [] => none
  | l => digitsToNat l 0

/-- An ECMAScript array-index property key: the canonical decimal string
of some `n < 2^32 - 1` (ECMA-262 §6.1.7).  Such keys are enumerated before
all other string keys, in ascending numeric order. -/
def canonicalNat (s : String) : Option Nat :=
  match strToNat s with
  | some n => if s = toString n ∧ n < 4294967295 then some n else none
  | Option.none => none

/-- Numeric value used to order array-index keys. -/
def keyNum (p : String × List FilmHistory) : Nat :=
  (canonicalNat p.1).getD 0

/-- Ordering of array-index properties. -/
def entriesLe (p q : String × List FilmHistory) : Prop :=
  keyNum p ≤ keyNum q

instance : DecidableRel entriesLe :=
  fun _ _ => Nat.decLe _ _

/-- `Object.entries` enumeration order on a plain JavaScript object
(ECMA-262 OrdinaryOwnPropertyKeys): array-index keys first in ascending
numeric order, then the remaining string keys in insertion order. -/
def jsEntries (gs : List (String × List FilmHistory)) :
    List (String × List FilmHistory) :=
  List.insertionSort entriesLe (gs.filter fun p => (canonicalNat p.1).isSome) ++
    gs.filter fun p => (canonicalNat p.1).isNone

/-- The grouped page as rendered at line 400:
`Object.entries(groupedMovies)`. -/
def displayedGroups (g : GroupOption) (slice : List FilmHistory) :
    List (String × List FilmHistory) :=
  jsEntries (groupedMovies g slice)

/-- The UI events that feed the pipeline: the `useState` setters wired to
the controls, `toggleGenre`, and the two pagination buttons. -/
inductive Event where
  | setSearch (q : String)
  | toggleGenre (g : String)
  | setRating (r : String)
  | setDuration (d : String)
  | setYear (y : String)
  | setDateRange (fr tj : Option Int)
  | setSortBy (k : SortOption)
  | setGroupBy (g : GroupOption)
  | setItemsPerPage (n : Nat)
  | nextPage
  | prevPage
  deriving DecidableEq, Repr

/-- One synchronous state transition.  Changes to any `useEffect`
dependency (line 37: movies, search, genres, rating, duration, year,
dateRange, sortBy) re-run `applyFilters`; `setItemsPerPage` resets the
page inline (lines 385–388); `setGroupBy` does neither; the pagination
buttons clamp (lines 446, 461). -/
def step (s : HistoryState) : Event → HistoryState
  | .setSearch q => applyFilters { s with searchQuery := q }
  | .toggleGenre g =>
    applyFilters { s with
      selectedGenres :=
        if g ∈ s.selectedGenres then s.selectedGenres.filter (· ≠ g)
        else s.selectedGenres ++ [g] }
  | .setRating r => applyFilters { s with ratingFilter := r }
  | .setDuration d => applyFilters { s with durationFilter := d }
  | .setYear y => applyFilters { s with yearFilter := y }
  | .setDateRange fr tj => applyFilters { s with dateFrom := fr, dateTo := tj }
  | .setSortBy k => applyFilters { s with sortBy := k }
  | .setGroupBy g => { s with groupBy := g }
  | .setItemsPerPage n => { s with itemsPerPage := n, currentPage := 1 }
  | .nextPage => { s with currentPage := min (totalPages s) (s.currentPage + 1) }
  | .prevPage => { s with currentPage := max 1 (s.currentPage - 1) }

/-- Events that change a filter criterion, the sort key, or the page
size. -/
def isFilterSortOrPageSizeChange : Event → Bool
  | .setSearch _ | .toggleGenre _ | .setRating _ | .setDuration _
  | .setYear _ | .setDateRange _ _ | .setSortBy _ | .setItemsPerPage _ => true
  | .setGroupBy _ | .nextPage | .prevPage => false

/-- Labels in order of first encounter while scanning front to back. -/
def firstSeen (ks : List String) : List String :=
  ks.foldl (fun acc k => if k ∈ acc then acc else acc ++ [k]) []

/-- Modelled from the spec (§4.4): "Bucket order = order of first
encounter while scanning the page slice (not alphabetical, not
chronological); within a bucket, entries retain page-slice order."
Used as the specification-side grouping to compare the code's displayed
grouping against. -/
def specGroup (g : GroupOption) (slice : List FilmHistory) :
    List (String × List FilmHistory) :=
  (firstSeen (slice.map (groupLabel g))).map
    fun k => (k, slice.filter fun m => groupLabel g m = k)

/-- Everything the component renders from its state: the filtered subset,
the page slice, the displayed grouped page, the page count and the three
statistics. -/
def pipelineView (s : HistoryState) :
    List FilmHistory × List FilmHistory × List (String × List FilmHistory) ×
      Nat × Nat × ℤ × Nat :=
  (s.filteredMovies, currentMovies s,
    jsEntries (groupedMovies s.groupBy (currentMovies s)),
    totalPages s, totalMovies s, totalHours s, filteredCount s)

/-- Fixture: an undated entry. -/
def exUndated : FilmHistory :=
  { id := 1, name := "Undated", genre := Option.none, rating := Option.none,
    duration := Option.none, description := Option.none,
    dateAdded := Option.none }

/-- Fixture: an entry dated before the epoch (watched 1960-01-01;
`getTime()` is negative). -/
def exPreEpoch : FilmHistory :=
  { id := 2, name := "Pre-epoch", genre := Option.none, rating := Option.none,
    duration := some 100, description := Option.none,
    dateAdded := some { time := -315619200000, year := 1960,
                        monthLabel := "January 1960" } }

/-- Fixture: an entry dated in 2024. -/
def exIn2024 : FilmHistory :=
  { id := 3, name := "Alpha", genre := some "action", rating := some "PG",
    duration := some 85, description := some "great stunts",
    dateAdded := some { time := 1710460800000, year := 2024,
                        monthLabel := "March 2024" } }

/-- Fixture: an entry dated in 2023. -/
def exIn2023 : FilmHistory :=
  { id := 4, name := "Beta", genre := some "drama", rating := some "R",
    duration := some 130, description := some "slow burn",
    dateAdded := some { time := 1690848000000, year := 2023,
                        monthLabel := "August 2023" } }

/-- Fixture: a component state over the four entries, no active filters. -/
def exState : HistoryState :=
  { movies := [exIn2024, exIn2023, exUndated, exPreEpoch],
    filteredMovies := [exIn2024, exIn2023, exUndated],
    searchQuery := "", selectedGenres := [], ratingFilter := "all",
    durationFilter := "all", yearFilter := "all",
    dateFrom := Option.none, dateTo := Option.none,
    sortBy := .name, groupBy := .none, itemsPerPage := 10, currentPage := 3 }

/-- Fixture: a state whose base collection is empty, grouping by `none`. -/
def exEmptyState : HistoryState :=
  { movies := [], filteredMovies := [exIn2024],
    searchQuery := "", selectedGenres := [], ratingFilter := "all",
    durationFilter := "all", yearFilter := "all",
    dateFrom := Option.none, dateTo := Option.none,
    sortBy := .name, groupBy := .none, itemsPerPage := 10, currentPage := 1 }

/-- Fixture: `exState` with a different search box content but the same
base collection. -/
def exStateOtherFilters : HistoryState :=
  { exState with
    searchQuery := "beta",
    ratingFilter := "R",
    durationFilter := "short" }

/-! ## Model sanity checks -/

theorem sanity_jsIncludes :
    jsIncludes "Hello World" "lo W" = true ∧ jsIncludes "Hello" "z" = false :=
  ⟨by decide, by decide⟩

theorem sanity_jsToLower_jsTrim :
    jsToLower "ABC-dé" = "abc-dé" ∧ jsTrim "  x y " = "x y" ∧ jsTrim "" = "" :=
  ⟨by decide, by decide, by decide⟩

theorem sanity_strCmpInt : strCmpInt "PG" "PG-13" = -1 := by decide

theorem sanity_canonicalNat :
    canonicalNat "2024" = some 2024 ∧ canonicalNat "Unknown" = none ∧
      canonicalNat "March 2024" = none ∧ canonicalNat "All Movies" = none ∧
      canonicalNat "007" = none ∧ canonicalNat "" = none :=
  ⟨by decide, by decide, by decide, by decide, by decide, by decide⟩

theorem sanity_jsEntries :
    jsEntries [("2024", []), ("2023", []), ("Unknown", [])] =
      [("2023", []), ("2024", []), ("Unknown", [])] := by
  decide

/-! ## Order lemmas for the comparators -/

theorem lexLt_trichot :
    ∀ s t : List Char, lexLt s t = true ∨ s = t ∨ lexLt t s = true
  | [], [] => .inr (.inl rfl)
  | [], _ :: _ => .inl rfl
  | _ :: _, [] => .inr (.inr rfl)
  | a :: as, b :: bs => by
    rcases Nat.lt_trichotomy a.toNat b.toNat with h | h | h
    · exact .inl (by simp [lexLt, h])
    · have hab : a = b := Char.eq_of_val_eq (UInt32.toNat.inj h)
      subst hab
      rcases lexLt_trichot as bs with h' | h' | h'
      · exact .inl (by simp [lexLt, h'])
      · exact .inr (.inl (by rw [h']))
      · exact .inr (.inr (by simp [lexLt, h']))
    · exact .inr (.inr (by simp [lexLt, h]))

theorem lexLt_asymm :
    ∀ s t : List Char, lexLt s t = true → lexLt t s = false
  | [], [] => fun h => by simp [lexLt] at h
  | [], _ :: _ => fun _ => rfl
  | _ :: _, [] => fun h => by simp [lexLt] at h
  | a :: as, b :: bs => fun h => by
    simp only [lexLt, Bool.or_eq_true, Bool.and_eq_true, decide_eq_true_eq] at h
    simp only [lexLt, Bool.or_eq_false_iff, Bool.and_eq_false_iff,
      decide_eq_false_iff_not]
    rcases h with h | ⟨rfl, h⟩
    · refine ⟨by omega, .inl fun he => ?_⟩
      have hn : b.toNat = a.toNat := by rw [he]
      omega
    · exact ⟨by omega, .inr (lexLt_asymm as bs h)⟩

theorem lexLt_trans :
    ∀ s t u : List Char, lexLt s t = true → lexLt t u = true → lexLt s u = true
  | [], [], [], h1, _ => by simp [lexLt] at h1
  | [], [], _ :: _, h1, _ => by simp [lexLt] at h1
  | [], _ :: _, [], _, h2 => by simp [lexLt] at h2
  | [], _ :: _, _ :: _, _, _ => rfl
  | _ :: _, [], _, h1, _ => by simp [lexLt] at h1
  | _ :: _, _ :: _, [], _, h2 => by simp [lexLt] at h2
  | a :: as, b :: bs, c :: cs, h1, h2 => by
    simp only [lexLt, Bool.or_eq_true, Bool.and_eq_true, decide_eq_true_eq] at h1 h2 ⊢
    rcases h1 with h1 | ⟨rfl, h1⟩
    · rcases h2 with h2 | ⟨rfl, _⟩
      · exact .inl (by omega)
      · exact .inl h1
    · rcases h2 with h2 | ⟨rfl, h2⟩
      · exact .inl h2
      · exact .inr ⟨rfl, lexLt_trans as bs cs h1 h2⟩

theorem lexLt_false_total (s t : List Char) :
    lexLt s t = false ∨ lexLt t s = false := by
  cases h : lexLt s t with
  | false => exact .inl rfl
  | true => exact .inr (lexLt_asymm s t h)

theorem lexLt_false_trans {s t u : List Char}
    (h1 : lexLt t s = false) (h2 : lexLt u t = false) : lexLt u s = false := by
  cases hus : lexLt u s with
  | false => rfl
  | true =>
    rcases lexLt_trichot s t with h | h | h
    · have h3 := lexLt_trans u s t hus h
      rw [h3] at h2; cases h2
    · subst h; rw [hus] at h2; cases h2
    · rw [h] at h1; cases h1

theorem strCmpInt_le_zero {s t : String} :
    strCmpInt s t ≤ 0 ↔ strLt t s = false := by
  unfold strCmpInt
  cases h1 : strLt s t with
  | true =>
    simp only [if_pos rfl]
    simp [strLt, lexLt_asymm _ _ h1]
  | false =>
    cases h2 : strLt t s <;> simp [h1, h2]

theorem sortLe_total (k : SortOption) (a b : FilmHistory) :
    sortLe k a b ∨ sortLe k b a := by
  cases k <;>
    simp only [sortLe, cmpMovies, strCmpInt_le_zero, strLt] <;>
    first
      | exact lexLt_false_total _ _
      | exact (lexLt_false_total _ _).symm
      | omega

theorem sortLe_trans (k : SortOption) {a b c : FilmHistory}
    (h1 : sortLe k a b) (h2 : sortLe k b c) : sortLe k a c := by
  cases k <;>
    simp only [sortLe, cmpMovies, strCmpInt_le_zero, strLt] at h1 h2 ⊢ <;>
    first
      | exact lexLt_false_trans h1 h2
      | exact lexLt_false_trans h2 h1
      | omega

instance (k : SortOption) : IsTotal FilmHistory (sortLe k) := ⟨sortLe_total k⟩

instance (k : SortOption) : IsTrans FilmHistory (sortLe k) :=
  ⟨fun _ _ _ => sortLe_trans k⟩

instance : IsTotal (String × List FilmHistory) entriesLe :=
  ⟨fun p q => Nat.le_total (keyNum p) (keyNum q)⟩

instance : IsTrans (String × List FilmHistory) entriesLe :=
  ⟨fun _ _ _ => Nat.le_trans⟩

/-! ## Structure of the grouping fold -/

theorem pushGroup_map_fst (gs : List (String × List FilmHistory)) (k : String)
    (m : FilmHistory) :
    (pushGroup gs k m).map Prod.fst =
      if k ∈ gs.map Prod.fst then gs.map Prod.fst
      else gs.map Prod.fst ++ [k] := by
  induction gs with
  | nil => simp [pushGroup]
  | cons p rest ih =>
    obtain ⟨k0, b⟩ := p
    simp only [pushGroup]
    by_cases h : k0 = k
    · subst h
      simp
    · rw [if_neg h]
      simp only [List.map_cons]
      rw [ih]
      by_cases hm : k ∈ rest.map Prod.fst
      · rw [if_pos hm, if_pos (by simp [hm])]
      · rw [if_neg hm,
          if_neg (by simp only [List.mem_cons]; rintro (rfl | hc) <;> simp_all)]
        simp

theorem pushGroup_nodup {gs : List (String × List FilmHistory)} {k : String}
    {m : FilmHistory} (hnd : (gs.map Prod.fst).Nodup) :
    ((pushGroup gs k m).map Prod.fst).Nodup := by
  rw [pushGroup_map_fst]
  split
  · exact hnd
  · next h => simp [List.nodup_append, hnd, List.disjoint_singleton, h]

theorem pushGroup_buckets :
    ∀ (gs : List (String × List FilmHistory)) (k : String) (m : FilmHistory)
      (P : String → List FilmHistory),
      (gs.map Prod.fst).Nodup →
      (∀ p ∈ gs, p.2 = P p.1) →
      (k ∉ gs.map Prod.fst → P k = []) →
      ∀ p ∈ pushGroup gs k m,
        p.2 = if k = p.1 then P p.1 ++ [m] else P p.1
  | [], k, m, P, _, _, h0, p, hp => by
    simp only [pushGroup, List.mem_singleton] at hp
    subst hp
    simp [h0 (by simp)]
  | (k0, b) :: rest, k, m, P, hnd, hb, h0, p, hp => by
    simp only [pushGroup] at hp
    by_cases h : k0 = k
    · subst h
      rw [if_pos rfl] at hp
      rcases List.mem_cons.mp hp with rfl | hp
    -- the updated head bucket
      · have hbk : b = P k0 := hb (k0, b) (by simp)
        simp [hbk]
      · have hmem : p ∈ (k0, b) :: rest := by simp [hp]
        have h2 := hb p hmem
        have hne : p.1 ≠ k0 := by
          intro he
          have : k0 ∈ rest.map Prod.fst := by
            rw [← he]
            exact List.mem_map_of_mem Prod.fst hp
          simp only [List.map_cons, List.nodup_cons] at hnd
          exact hnd.1 this
        rw [if_neg (fun hx => hne hx.symm)]
        exact h2
    · rw [if_neg h] at hp
      rcases List.mem_cons.mp hp with rfl | hp
      · have h2 := hb (k0, b) (by simp)
        have hne : k ≠ (k0, b).1 := fun hx => h hx.symm
        rw [if_neg hne]
        exact h2
      · have hnd' : (rest.map Prod.fst).Nodup := by
          simp only [List.map_cons, List.nodup_cons] at hnd
          exact hnd.2
        have hb' : ∀ q ∈ rest, q.2 = P q.1 := fun q hq => hb q (by simp [hq])
        have h0' : k ∉ rest.map Prod.fst → P k = [] := by
          intro hk
          apply h0
          simp only [List.map_cons, List.mem_cons]
          rintro (rfl | hc)
          · exact h rfl
          · exact hk hc
        exact pushGroup_buckets rest k m P hnd' hb' h0' p hp

theorem groupFold_keys (g : GroupOption) :
    ∀ (slice : List FilmHistory) (gs : List (String × List FilmHistory)),
      ((slice.foldl (fun a m => pushGroup a (groupLabel g m) m) gs).map Prod.fst)
        = slice.foldl
            (fun acc m =>
              if groupLabel g m ∈ acc then acc else acc ++ [groupLabel g m])
            (gs.map Prod.fst)
  | [], _ => rfl
  | m :: rest, gs => by
    simp only [List.foldl_cons]
    rw [groupFold_keys g rest, pushGroup_map_fst]

theorem groupFold_nodup (g : GroupOption) :
    ∀ (slice : List FilmHistory) (gs : List (String × List FilmHistory)),
      (gs.map Prod.fst).Nodup →
      ((slice.foldl (fun a m => pushGroup a (groupLabel g m) m) gs).map
          Prod.fst).Nodup
  | [], _, h => h
  | m :: rest, gs, h => by
    simp only [List.foldl_cons]
    exact groupFold_nodup g rest _ (pushGroup_nodup h)

theorem groupFold_buckets (g : GroupOption) :
    ∀ (slice : List FilmHistory) (gs : List (String × List FilmHistory))
      (P : String → List FilmHistory),
      (gs.map Prod.fst).Nodup →
      (∀ p ∈ gs, p.2 = P p.1) →
      (∀ k, k ∉ gs.map Prod.fst → P k = []) →
      ∀ p ∈ slice.foldl (fun a m => pushGroup a (groupLabel g m) m) gs,
        p.2 = P p.1 ++ slice.filter fun m => groupLabel g m = p.1
  | [], gs, P, _, hb, _, p, hp => by simpa using hb p hp
  | m :: rest, gs, P, hnd, hb, h0, p, hp => by
    simp only [List.foldl_cons] at hp
    have hb' := pushGroup_buckets gs (groupLabel g m) m P hnd hb
      (h0 (groupLabel g m))
    have h0' : ∀ x, x ∉ (pushGroup gs (groupLabel g m) m).map Prod.fst →
        (if groupLabel g m = x then P x ++ [m] else P x) = [] := by
      intro x hx
      rw [pushGroup_map_fst] at hx
      by_cases hkin : groupLabel g m ∈ gs.map Prod.fst
      · rw [if_pos hkin] at hx
        have hxk : groupLabel g m ≠ x := by
          rintro rfl
          exact hx hkin
        rw [if_neg hxk]
        exact h0 x hx
      · rw [if_neg hkin] at hx
        simp only [List.mem_append, List.mem_singleton] at hx
        push_neg at hx
        rw [if_neg (fun he => hx.2 he.symm)]
        exact h0 x hx.1
    have ih := groupFold_buckets g rest (pushGroup gs (groupLabel g m) m)
      (fun x => if groupLabel g m = x then P x ++ [m] else P x)
      (pushGroup_nodup hnd) hb' h0' p hp
    rw [ih]
    by_cases hkp : groupLabel g m = p.1
    · simp [List.filter_cons, hkp]
    · simp [List.filter_cons, hkp]

theorem assoc_eq_of_buckets :
    ∀ (l : List (String × List FilmHistory)) (f : String → List FilmHistory),
      (∀ p ∈ l, p.2 = f p.1) →
      l = (l.map Prod.fst).map fun k => (k, f k)
  | [], _, _ => rfl
  | (k, b) :: rest, f, h => by
    have h1 : b = f k := h (k, b) (by simp)
    simp only [List.map_cons]
    rw [← assoc_eq_of_buckets rest f fun q hq => h q (by simp [hq]), ← h1]

/-- For the temporal group keys, the code's grouping (in property
insertion order, before `Object.entries` reorders it) is exactly the
spec's first-encounter grouping. -/
theorem groupedMovies_eq_specGroup (g : GroupOption)
    (slice : List FilmHistory) (hg : g = .month ∨ g = .year) :
    groupedMovies g slice = specGroup g slice := by
  have hrw : groupedMovies g slice =
      slice.foldl (fun gs m => pushGroup gs (groupLabel g m) m) [] := by
    rcases hg with rfl | rfl <;> rfl
  have hbuck := groupFold_buckets g slice [] (fun _ => []) (by simp)
    (by simp) (fun _ _ => rfl)
  have hb2 : ∀ p ∈ slice.foldl (fun gs m => pushGroup gs (groupLabel g m) m) [],
      p.2 = slice.filter fun m => groupLabel g m = p.1 := by
    intro p hp
    simpa using hbuck p hp
  rw [hrw,
    assoc_eq_of_buckets _ (fun k => slice.filter fun m => groupLabel g m = k) hb2,
    groupFold_keys g slice []]
  unfold specGroup firstSeen
  rw [List.foldl_map]
  rfl

theorem jsEntries_mem {gs : List (String × List FilmHistory)}
    {p : String × List FilmHistory} (hp : p ∈ jsEntries gs) : p ∈ gs := by
  unfold jsEntries at hp
  rcases List.mem_append.mp hp with h | h
  · rw [List.mem_insertionSort] at h
    exact (List.mem_filter.mp h).1
  · exact (List.mem_filter.mp h).1

theorem jsEntries_of_no_index {gs : List (String × List FilmHistory)}
    (h : ∀ p ∈ gs, canonicalNat p.1 = none) : jsEntries gs = gs := by
  unfold jsEntries
  have h1 : (gs.filter fun p => (canonicalNat p.1).isSome) = [] := by
    rw [List.filter_eq_nil_iff]
    intro p hp
    simp [h p hp]
  have h2 : (gs.filter fun p => (canonicalNat p.1).isNone) = gs := by
    rw [List.filter_eq_self]
    intro p hp
    simp [h p hp]
  rw [h1, h2]
  rfl

/-- Any two array-index labels are displayed in ascending numeric order by
`Object.entries`. -/
theorem jsEntries_numeric_sorted (gs : List (String × List FilmHistory)) :
    ((jsEntries gs).map Prod.fst).Pairwise fun a b =>
      ∀ x y, canonicalNat a = some x → canonicalNat b = some y → x ≤ y := by
  unfold jsEntries
  rw [List.map_append, List.pairwise_append]
  refine ⟨?_, ?_, ?_⟩
  · rw [List.pairwise_map]
    have hs := List.sorted_insertionSort entriesLe
      (gs.filter fun p => (canonicalNat p.1).isSome)
    refine hs.imp fun {p q} hle x y hx hy => ?_
    unfold entriesLe keyNum at hle
    rw [hx, hy] at hle
    simpa using hle
  · rw [List.pairwise_map]
    apply List.pairwise_of_forall_mem_list
    intro p hp _ _ x y hx _
    have h2 := (List.mem_filter.mp hp).2
    rw [Option.isNone_iff_eq_none] at h2
    rw [h2] at hx
    cases hx
  · intro a _ b hb x y _ hy
    rw [List.mem_map] at hb
    obtain ⟨q, hq, rfl⟩ := hb
    have h2 := (List.mem_filter.mp hq).2
    rw [Option.isNone_iff_eq_none] at h2
    rw [h2] at hy
    cases hy

/-- `Object.entries` is a permutation of the stored properties: every
bucket appears in the display, exactly as often as it was stored. -/
theorem jsEntries_perm (gs : List (String × List FilmHistory)) :
    (jsEntries gs).Perm gs := by
  unfold jsEntries
  have h1 : (List.insertionSort entriesLe
        (gs.filter fun p => (canonicalNat p.1).isSome)).Perm
      (gs.filter fun p => (canonicalNat p.1).isSome) :=
    List.perm_insertionSort _ _
  refine (h1.append_right _).trans ?_
  have h2 : (gs.filter fun p => (canonicalNat p.1).isNone) =
      gs.filter fun p => !(canonicalNat p.1).isSome :=
    List.filter_congr fun p _ => by cases canonicalNat p.1 <;> rfl
  rw [h2]
  exact List.filter_append_perm _ gs

/-- In the displayed order, every array-index label precedes every
non-index label: once a non-index label occurs, all later labels are
non-index. -/
theorem jsEntries_idx_first (gs : List (String × List FilmHistory)) :
    ((jsEntries gs).map Prod.fst).Pairwise fun a b =>
      canonicalNat a = none → canonicalNat b = none := by
  unfold jsEntries
  rw [List.map_append, List.pairwise_append]
  refine ⟨?_, ?_, ?_⟩
  · rw [List.pairwise_map]
    apply List.pairwise_of_forall_mem_list
    intro p hp _ _ ha
    rw [List.mem_insertionSort] at hp
    have h2 := (List.mem_filter.mp hp).2
    rw [ha] at h2
    cases h2
  · rw [List.pairwise_map]
    apply List.pairwise_of_forall_mem_list
    intro _ _ q hq _
    have h2 := (List.mem_filter.mp hq).2
    rw [Option.isNone_iff_eq_none] at h2
    exact h2
  · intro a _ b hb _
    rw [List.mem_map] at hb
    obtain ⟨q, hq, rfl⟩ := hb
    have h2 := (List.mem_filter.mp hq).2
    rw [Option.isNone_iff_eq_none] at h2
    exact h2

/-- The displayed run of non-index buckets is exactly the stored
(insertion-ordered) run of non-index buckets. -/
theorem jsEntries_filter_isNone (gs : List (String × List FilmHistory)) :
    ((jsEntries gs).filter fun p => (canonicalNat p.1).isNone) =
      gs.filter fun p => (canonicalNat p.1).isNone := by
  unfold jsEntries
  rw [List.filter_append]
  have h1 : ((List.insertionSort entriesLe
        (gs.filter fun p => (canonicalNat p.1).isSome)).filter
      fun p => (canonicalNat p.1).isNone) = [] := by
    rw [List.filter_eq_nil_iff]
    intro p hp
    rw [List.mem_insertionSort] at hp
    have h2 := (List.mem_filter.mp hp).2
    cases hc : canonicalNat p.1 with
    | none => rw [hc] at h2; cases h2
    | some n => simp [hc]
  have h2 : ((gs.filter fun p => (canonicalNat p.1).isNone).filter
      fun p => (canonicalNat p.1).isNone) =
      gs.filter fun p => (canonicalNat p.1).isNone := by
    rw [List.filter_eq_self]
    intro p hp
    exact (List.mem_filter.mp hp).2
  rw [h1, h2]
  rfl

/-! ## Pipeline lemmas -/

theorem filter_stage_sublist {α : Type} (c : Prop) [Decidable c]
    (p : α → Bool) (l : List α) :
    List.Sublist (if c then l.filter p else l) l := by
  split
  · exact List.filter_sublist l
  · exact List.Sublist.refl l

theorem filterStep_yearFilter (s : HistoryState) (y : String) :
    filterStep { s with yearFilter := y } = filterStep s := by
  unfold filterStep
  simp only [ite_self]

theorem ceilq_eq (n m : ℕ) (hm : 0 < m) :
    ⌈(n : ℚ) / (m : ℚ)⌉₊ = (n + m - 1) / m := by
  apply le_antisymm
  · rw [Nat.ceil_le, div_le_iff₀ (by exact_mod_cast hm : (0:ℚ) < m)]
    have hle : n ≤ ((n + m - 1) / m) * m := by
      rw [mul_comm]
      have hdm := Nat.div_add_mod (n + m - 1) m
      have hmod : (n + m - 1) % m < m := Nat.mod_lt _ hm
      omega
    exact_mod_cast hle
  · by_cases hn : n = 0
    · subst hn
      have h0 : (m - 1) / m = 0 := Nat.div_eq_of_lt (by omega)
      simp [h0]
    · have h1 : 1 ≤ (n + m - 1) / m := by
        rw [Nat.le_div_iff_mul_le hm]
        omega
      have h2 : ((n + m - 1) / m - 1) < ⌈(n : ℚ) / (m : ℚ)⌉₊ := by
        rw [Nat.lt_ceil, lt_div_iff₀ (by exact_mod_cast hm : (0:ℚ) < m)]
        have hlt : ((n + m - 1) / m - 1) * m < n := by
          rw [Nat.sub_mul, one_mul, mul_comm]
          have hdm := Nat.div_add_mod (n + m - 1) m
          have hmod : (n + m - 1) % m < m := Nat.mod_lt _ hm
          omega
        exact_mod_cast hlt
      omega

/-! ## Claims -/

/-- C9: for every state (base collection and filter criteria), the
filtered subset before sorting is a sublist of the base collection — a
subset whose entries keep their base-collection relative order. -/
theorem C9_filter_sublist_of_base (s : HistoryState) :
    List.Sublist (filterStep s) s.movies := by
  unfold filterStep
  simp only [ite_self]
  exact (filter_stage_sublist _ _ _).trans
    ((filter_stage_sublist _ _ _).trans
      ((filter_stage_sublist _ _ _).trans
        ((filter_stage_sublist _ _ _).trans
          (filter_stage_sublist _ _ _))))

/-- C10: the year-filter control is a no-op — two pipeline runs whose
states differ only in `yearFilter` render identical views (filtered
subset, page slice, grouped page, page count, statistics). -/
theorem C10_yearFilter_noop (s : HistoryState) (y1 y2 : String) :
    pipelineView (applyFilters { s with yearFilter := y1 }) =
      pipelineView (applyFilters { s with yearFilter := y2 }) := by
  have h1 := filterStep_yearFilter s y1
  have h2 := filterStep_yearFilter s y2
  simp [pipelineView, applyFilters, currentMovies, startIndex, totalPages,
    totalMovies, totalHours, filteredCount, h1, h2]

/-- C7: every change to a filter criterion, the sort key, or the page
size resets `currentPage` to 1, so the page slice is taken from the
start of the filtered list. -/
theorem C7_change_resets_page (s : HistoryState) (e : Event)
    (h : isFilterSortOrPageSizeChange e = true) :
    (step s e).currentPage = 1 ∧
    currentMovies (step s e) =
      (step s e).filteredMovies.take (step s e).itemsPerPage := by
  cases e <;>
    simp_all [isFilterSortOrPageSizeChange, step, applyFilters,
      currentMovies, startIndex]

/-- C7 witness: a sort-key change on the concrete fixture state. -/
theorem C7_change_resets_page_witness :
    (step exState (Event.setSortBy SortOption.rating)).currentPage = 1 ∧
    currentMovies (step exState (Event.setSortBy SortOption.rating)) =
      (step exState (Event.setSortBy SortOption.rating)).filteredMovies.take
        (step exState (Event.setSortBy SortOption.rating)).itemsPerPage :=
  C7_change_resets_page exState (Event.setSortBy SortOption.rating) (by decide)

/-- C5: the duration-bucket predicate classifies by `durationMinutes`
defaulted to 0: `short` iff `< 90`, `medium` iff `90..120` inclusive,
`long` iff `> 120`; with `all` every entry passes. -/
theorem C5_duration_buckets (m : FilmHistory) :
    (durationPass "short" m = true ↔ m.duration.getD 0 < 90) ∧
    (durationPass "medium" m = true ↔
      (90 ≤ m.duration.getD 0 ∧ m.duration.getD 0 ≤ 120)) ∧
    (durationPass "long" m = true ↔ 120 < m.duration.getD 0) ∧
    durationPass "all" m = true := by
  refine ⟨?_, ?_, ?_, ?_⟩ <;> simp [durationPass]

/-- C4: with at least one date-range bound set, an entry without
`dateAdded` always passes, and a dated entry passes iff its timestamp
lies within the set bounds, both inclusive. -/
theorem C4_dateRange_filter (fr tj : Option Int) (m : FilmHistory)
    (h : fr.isSome ∨ tj.isSome) :
    (dateRangePass fr tj m = true ↔
      (m.dateAdded = Option.none ∨
        ∃ d, m.dateAdded = some d ∧
          (∀ f, fr = some f → f ≤ d.time) ∧
          (∀ t, tj = some t → d.time ≤ t))) := by
  cases hd : m.dateAdded with
  | none => simp [dateRangePass, hd]
  | some d =>
    cases fr <;> cases tj <;>
        simp [dateRangePass, hd, Option.any]

/-- C4 witness: scenario F — `from` set later than everything, entry has
no `dateAdded`, entry passes. -/
theorem C4_dateRange_filter_witness :
    dateRangePass (some 1893456000000) Option.none exUndated = true ↔
      (exUndated.dateAdded = Option.none ∨
        ∃ d, exUndated.dateAdded = some d ∧
          (∀ f, (some 1893456000000 : Option Int) = some f → f ≤ d.time) ∧
          (∀ t, (Option.none : Option Int) = some t → d.time ≤ t)) :=
  C4_dateRange_filter (some 1893456000000) Option.none exUndated (Or.inl rfl)

/-- C8: statistics — `totalCount` is the base collection's size,
`totalDurationHours` is the rounded base-wide duration sum in hours and
depends only on the base collection (not on any filter state), and
`filteredCount` after a pipeline run is the size of the filtered
subset. -/
theorem C8_statistics (s t : HistoryState) (h : t.movies = s.movies) :
    totalMovies s = s.movies.length ∧
    totalHours s = jsRound ((durSum s.movies : ℚ) / 60) ∧
    totalMovies t = totalMovies s ∧
    totalHours t = totalHours s ∧
    filteredCount (applyFilters s) = (filterStep s).length := by
  refine ⟨rfl, rfl, ?_, ?_, ?_⟩
  · simp [totalMovies, h]
  · simp [totalHours, durSum, h]
  · simp only [filteredCount, applyFilters, sortStep]
    exact (List.perm_insertionSort (sortLe s.sortBy) (filterStep s)).length_eq

/-- C8 witness: the fixture state against the same base collection under
different filters. -/
theorem C8_statistics_witness :
    totalMovies exState = exState.movies.length ∧
    totalHours exState = jsRound ((durSum exState.movies : ℚ) / 60) ∧
    totalMovies exStateOtherFilters = totalMovies exState ∧
    totalHours exStateOtherFilters = totalHours exState ∧
    filteredCount (applyFilters exState) = (filterStep exState).length :=
  C8_statistics exState exStateOtherFilters rfl

/-- C3: with a positive page size, `totalPages` is the ceiling of
`filteredCount / pageSize` (the usual integer formula), and it is `0`
exactly when the filtered subset is empty — never clamped up to 1. -/
theorem C3_totalPages_ceil (s : HistoryState) (h : 0 < s.itemsPerPage) :
    totalPages s = (filteredCount s + s.itemsPerPage - 1) / s.itemsPerPage ∧
    (totalPages s = 0 ↔ filteredCount s = 0) := by
  have he : totalPages s =
      (s.filteredMovies.length + s.itemsPerPage - 1) / s.itemsPerPage :=
    ceilq_eq _ _ h
  refine ⟨he, ?_⟩
  rw [he, Nat.div_eq_zero_iff h]
  unfold filteredCount
  omega

/-- C3 witness: the fixture state with page size 10. -/
theorem C3_totalPages_ceil_witness :
    totalPages exState =
      (filteredCount exState + exState.itemsPerPage - 1) /
        exState.itemsPerPage ∧
    (totalPages exState = 0 ↔ filteredCount exState = 0) :=
  C3_totalPages_ceil exState (by decide)

theorem firstSeen_aux :
    ∀ (ks acc : List String) (x : String),
      x ∈ ks.foldl (fun a k => if k ∈ a then a else a ++ [k]) acc →
      x ∈ acc ∨ x ∈ ks
  | [], _, _, h => .inl h
  | k :: rest, acc, x, h => by
    simp only [List.foldl_cons] at h
    rcases firstSeen_aux rest _ x h with h' | h'
    · by_cases hk : k ∈ acc
      · rw [if_pos hk] at h'
        exact .inl h'
      · rw [if_neg hk] at h'
        rcases List.mem_append.mp h' with h2 | h2
        · exact .inl h2
        · simp only [List.mem_singleton] at h2
          subst h2
          exact .inr (List.mem_cons_self _ _)
    · exact .inr (List.mem_cons_of_mem _ h')

theorem firstSeen_mem {ks : List String} {x : String}
    (h : x ∈ firstSeen ks) : x ∈ ks := by
  rcases firstSeen_aux ks [] x h with h' | h'
  · cases h'
  · exact h'

/-- C6 counterexample: the claim's consequence "undated entries sort
last" fails — sorting `[undated, pre-epoch]` by `dateAdded` leaves the
undated entry first, because the missing date defaults to the epoch while
the dated entry's timestamp is negative. -/
theorem C6_sort_counterexample :
    ¬ (sortStep SortOption.dateAdded [exUndated, exPreEpoch]).Pairwise
        (fun x y => x.dateAdded = Option.none → y.dateAdded = Option.none) := by
  decide

/-- C6 (amended): the rating comparator is descending lexicographic on
the raw rating strings with a missing rating read as `""`; the
`dateAdded` comparator is descending on timestamps with a missing date
read as the epoch; consequently undated entries sort last whenever every
dated entry's timestamp is after the epoch (an entry dated at or before
the epoch may precede undated ones). -/
theorem C6_sort_comparators_amended (a b : FilmHistory)
    (l : List FilmHistory)
    (hpos : ∀ m ∈ l, ∀ d, m.dateAdded = some d → 0 < d.time) :
    (sortLe SortOption.rating a b ↔
      strLt (a.rating.getD "") (b.rating.getD "") = false) ∧
    (sortLe SortOption.dateAdded a b ↔ timeOf b ≤ timeOf a) ∧
    (sortStep SortOption.dateAdded l).Pairwise
      (fun x y => x.dateAdded = Option.none → y.dateAdded = Option.none) := by
  refine ⟨?_, ?_, ?_⟩
  · simp only [sortLe, cmpMovies, strCmpInt_le_zero, strLt]
  · simp only [sortLe, cmpMovies]
    omega
  · have hs := List.sorted_insertionSort (sortLe SortOption.dateAdded) l
    unfold sortStep
    refine hs.imp_of_mem ?_
    intro x y hx hy hle hxnone
    rw [List.mem_insertionSort] at hx hy
    cases hyd : y.dateAdded with
    | none => rfl
    | some d =>
      exfalso
      have hdpos := hpos y hy d hyd
      simp only [sortLe, cmpMovies] at hle
      simp only [timeOf, hxnone, hyd] at hle
      omega

/-- C6 witness: both comparator characterizations and the undated-last
consequence on a list whose dated entries are all after the epoch. -/
theorem C6_sort_comparators_amended_witness :
    (sortLe SortOption.rating exIn2024 exIn2023 ↔
      strLt (exIn2024.rating.getD "") (exIn2023.rating.getD "") = false) ∧
    (sortLe SortOption.dateAdded exIn2024 exIn2023 ↔
      timeOf exIn2023 ≤ timeOf exIn2024) ∧
    (sortStep SortOption.dateAdded
        [exIn2024, exIn2023, exUndated]).Pairwise
      (fun x y => x.dateAdded = Option.none → y.dateAdded = Option.none) :=
  C6_sort_comparators_amended exIn2024 exIn2023
    [exIn2024, exIn2023, exUndated] (by decide)

/-- C1 counterexample: grouping the page slice `[entry dated 2024, entry
dated 2023]` by `year` displays the `"2023"` bucket first, because
`Object.entries` enumerates array-index keys in ascending numeric order —
not in the first-encounter order the claim states. -/
theorem C1_grouping_counterexample :
    displayedGroups GroupOption.year [exIn2024, exIn2023] =
        [("2023", [exIn2023]), ("2024", [exIn2024])] ∧
      specGroup GroupOption.year [exIn2024, exIn2023] =
        [("2024", [exIn2024]), ("2023", [exIn2023])] ∧
      displayedGroups GroupOption.year [exIn2024, exIn2023] ≠
        specGroup GroupOption.year [exIn2024, exIn2023] := by
  refine ⟨by decide, by decide, by decide⟩

/-- C1 (amended): for the temporal group keys the displayed grouping is
pinned down as follows.  (1) Within each displayed bucket the entries
appear in page-slice order (each bucket is the slice filtered to its
label).  (2) The display is a permutation of the first-encounter
grouping: exactly the encountered buckets appear, once each, with their
contents.  (3) Every integer-like label (the `year` labels) precedes
every non-integer-like label (such as `"Unknown"`).  (4) Integer-like
labels appear in ascending numeric order.  (5) The run of
non-integer-like buckets keeps exactly its first-encounter order and
contents.  (6) When no label is integer-like — as for `month` labels —
the whole display is exactly the first-encounter grouping. -/
theorem C1_grouping_amended (g : GroupOption) (slice : List FilmHistory)
    (hg : g = GroupOption.month ∨ g = GroupOption.year) :
    (∀ p ∈ displayedGroups g slice,
        p.2 = slice.filter fun m => groupLabel g m = p.1) ∧
    ((displayedGroups g slice).Perm (specGroup g slice)) ∧
    (((displayedGroups g slice).map Prod.fst).Pairwise fun a b =>
        canonicalNat a = none → canonicalNat b = none) ∧
    (((displayedGroups g slice).map Prod.fst).Pairwise fun a b =>
        ∀ x y, canonicalNat a = some x → canonicalNat b = some y → x ≤ y) ∧
    (((displayedGroups g slice).filter fun p => (canonicalNat p.1).isNone) =
      ((specGroup g slice).filter fun p => (canonicalNat p.1).isNone)) ∧
    ((∀ m ∈ slice, canonicalNat (groupLabel g m) = none) →
        displayedGroups g slice = specGroup g slice) := by
  have hspec := groupedMovies_eq_specGroup g slice hg
  have hdisp : displayedGroups g slice = jsEntries (specGroup g slice) := by
    unfold displayedGroups
    rw [hspec]
  refine ⟨?_, ?_, ?_, ?_, ?_, ?_⟩
  · intro p hp
    have hp2 : p ∈ groupedMovies g slice := jsEntries_mem hp
    rw [hspec] at hp2
    unfold specGroup at hp2
    rw [List.mem_map] at hp2
    obtain ⟨k, _, rfl⟩ := hp2
    rfl
  · rw [hdisp]
    exact jsEntries_perm _
  · rw [hdisp]
    exact jsEntries_idx_first _
  · rw [hdisp]
    exact jsEntries_numeric_sorted _
  · rw [hdisp]
    exact jsEntries_filter_isNone _
  · intro hnum
    unfold displayedGroups
    rw [jsEntries_of_no_index, hspec]
    intro p hp
    rw [hspec] at hp
    unfold specGroup at hp
    rw [List.mem_map] at hp
    obtain ⟨k, hk, rfl⟩ := hp
    have hk2 : k ∈ slice.map (groupLabel g) := firstSeen_mem hk
    rw [List.mem_map] at hk2
    obtain ⟨m, hm, rfl⟩ := hk2
    exact hnum m hm

/-- C1 witness: grouping a concrete slice by `year` — two dated entries
(encountered 2024 before 2023) plus an undated one, so the display must
hold all three buckets, `"2023"` before `"2024"`, both before
`"Unknown"`. -/
theorem C1_grouping_amended_witness :
    (∀ p ∈ displayedGroups GroupOption.year [exIn2024, exIn2023, exUndated],
        p.2 = [exIn2024, exIn2023, exUndated].filter fun m =>
          groupLabel GroupOption.year m = p.1) ∧
    ((displayedGroups GroupOption.year
        [exIn2024, exIn2023, exUndated]).Perm
      (specGroup GroupOption.year [exIn2024, exIn2023, exUndated])) ∧
    (((displayedGroups GroupOption.year
        [exIn2024, exIn2023, exUndated]).map Prod.fst).Pairwise fun a b =>
        canonicalNat a = none → canonicalNat b = none) ∧
    (((displayedGroups GroupOption.year
        [exIn2024, exIn2023, exUndated]).map Prod.fst).Pairwise fun a b =>
        ∀ x y, canonicalNat a = some x → canonicalNat b = some y → x ≤ y) ∧
    (((displayedGroups GroupOption.year
        [exIn2024, exIn2023, exUndated]).filter fun p =>
          (canonicalNat p.1).isNone) =
      ((specGroup GroupOption.year [exIn2024, exIn2023, exUndated]).filter
        fun p => (canonicalNat p.1).isNone)) ∧
    ((∀ m ∈ [exIn2024, exIn2023, exUndated],
        canonicalNat (groupLabel GroupOption.year m) = none) →
        displayedGroups GroupOption.year [exIn2024, exIn2023, exUndated] =
          specGroup GroupOption.year [exIn2024, exIn2023, exUndated]) :=
  C1_grouping_amended GroupOption.year [exIn2024, exIn2023, exUndated]
    (Or.inr rfl)

/-- C2 counterexample: with an empty base collection and `groupBy =
'none'`, the filtered subset is empty yet the grouped page is not an
empty mapping — it holds the single `'All Movies'` bucket. -/
theorem C2_empty_counterexample :
    filterStep exEmptyState = [] ∧
    (applyFilters exEmptyState).groupBy = GroupOption.none ∧
    displayedGroups (applyFilters exEmptyState).groupBy
        (currentMovies (applyFilters exEmptyState)) ≠ [] := by
  refine ⟨by decide, by decide, by decide⟩

/-- C2 (amended): when the filtered subset is empty, `totalPages = 0` and
`filteredCount = 0`, and the grouped page is an empty mapping for the
temporal group keys `month` and `year`; for group key `none` it is
instead the single `'All Movies'` bucket holding the empty sequence.
All of this is produced by ordinary evaluation, not an error path. -/
theorem C2_empty_filtered_amended (s : HistoryState)
    (h : filterStep s = []) :
    filteredCount (applyFilters s) = 0 ∧
    totalPages (applyFilters s) = 0 ∧
    displayedGroups GroupOption.month (currentMovies (applyFilters s)) = [] ∧
    displayedGroups GroupOption.year (currentMovies (applyFilters s)) = [] ∧
    displayedGroups GroupOption.none (currentMovies (applyFilters s)) =
      [("All Movies", [])] := by
  have hfm : (applyFilters s).filteredMovies = [] := by
    simp [applyFilters, sortStep, h, List.insertionSort]
  have hcm : currentMovies (applyFilters s) = [] := by
    simp [currentMovies, hfm]
  refine ⟨?_, ?_, ?_, ?_, ?_⟩
  · simp [filteredCount, hfm]
  · simp [totalPages, hfm]
  · rw [hcm]
    rfl
  · rw [hcm]
    rfl
  · rw [hcm]
    decide

/-- C2 witness: the empty fixture state. -/
theorem C2_empty_filtered_amended_witness :
    filteredCount (applyFilters exEmptyState) = 0 ∧
    totalPages (applyFilters exEmptyState) = 0 ∧
    displayedGroups GroupOption.month
      (currentMovies (applyFilters exEmptyState)) = [] ∧
    displayedGroups GroupOption.year
      (currentMovies (applyFilters exEmptyState)) = [] ∧
    displayedGroups GroupOption.none
      (currentMovies (applyFilters exEmptyState)) = [("All Movies", [])] :=
  C2_empty_filtered_amended exEmptyState (by decide)
